import Mathlib

/-!
# Verification of `mrjob/fs/composite.py` (`CompositeFilesystem`)

Shallow embedding of the composite-filesystem dispatcher:

* a backend (`Filesystem`) is an object with a `can_handle_path` predicate and
  a dictionary of named methods (`methods`), each taking a path plus extra
  string arguments and returning a value or raising an exception;
* `do_action` embeds `CompositeFilesystem._do_action`: try each capable
  backend in registry order, return the first success, remember the first
  `IOError`, let every non-`IOError` exception propagate, and when nothing
  succeeded raise the remembered first `IOError` or a generic one;
* `composite_getattr` embeds `CompositeFilesystem.__getattr__`: forward an
  unknown attribute name to the first backend that has it;
* `cat_file` / `genNext` embed the generator `CompositeFilesystem._cat_file`
  with explicit Python-generator state (not started / running / closed).

Instrumented variants (`do_actionT`, `composite_getattrT`) additionally return
the list of registry positions attempted/queried, to state which backends a
call touches; their first components are proved equal to the plain versions.
-/

set_option autoImplicit false

namespace CompositeFS

/-- A Python exception, as the dispatcher distinguishes them: an `IOError`
(the class caught by `_do_action`), an `AttributeError` (raised by `getattr`
and by `__getattr__`), or any other exception class, carried with its class
name. -/
inductive Exc where
  | ioError (msg : String)
  | attributeError (name : String)
  | otherError (cls : String) (msg : String)
  deriving DecidableEq

/-- Does `except IOError` catch this exception? True exactly for the
`IOError` class. -/
def Exc.isIOError : Exc → Bool
  | .ioError _ => true
  | _ => false

/-- The exception's class name: the machine-matchable "kind" of the failure. -/
def Exc.kind : Exc → String
  | .ioError _ => "IOError"
  | .attributeError _ => "AttributeError"
  | .otherError cls _ => cls

/-- A backend filesystem object, as the dispatcher sees it: a path-ownership
predicate `can_handle_path` and an attribute dictionary `methods` mapping a
method name to its implementation (`none` when `hasattr` is false; `getattr`
then raises `AttributeError`). A method takes the path and the remaining
positional string arguments and returns a value of type `α` or raises. -/
structure Filesystem (α : Type) where
  can_handle_path : String → Bool
  methods : String → Option (String → List String → Except Exc α)

/-- The single quote character, used by Python `repr` of a string. -/
def pyQuote : String := String.singleton (Char.ofNat 39)

/-- Python `repr` of a string (quoting only; escaping is not modelled since
no path in scope contains a quote). -/
def pyStrRepr (s : String) : String := pyQuote ++ s ++ pyQuote

/-- Python `str` of a tuple of strings, as interpolated by
`'Could not %s: %s %s' % (action, path, args)` for the trailing `args`. -/
def pyTupleRepr : List String → String
  | [] => "()"
  | [a] => "(" ++ pyStrRepr a ++ ",)"
  | a :: b :: rest =>
    "(" ++ String.intercalate ", " ((a :: b :: rest).map pyStrRepr) ++ ")"

/-- The message of the generic failure `_do_action` synthesizes when no
backend claimed the path: `'Could not %s: %s %s' % (action, path, args)`. -/
def genericMsg (action path : String) (args : List String) : String :=
  "Could not " ++ action ++ ": " ++ path ++ " " ++ pyTupleRepr args

/-- One attempt `getattr(fs, action)(path, *args)` on a single backend:
`AttributeError` when the backend lacks the method (raised by `getattr`,
inside the `try` block but not an `IOError`), otherwise whatever the method
returns or raises. -/
def callAction {α : Type} (fs : Filesystem α) (action path : String)
    (args : List String) : Except Exc α :=
  match fs.methods action with
  | none => Except.error (Exc.attributeError action)
  | some m => m path args

/-- The loop of `CompositeFilesystem._do_action`, with the running
`first_exception` register made explicit. For each backend: skip it unless
`can_handle_path`; on success return immediately; on `IOError` record it only
if `first_exception is None` and continue; any other exception propagates.
When the list is exhausted, raise the recorded first `IOError`, or the
generic `IOError` if none was recorded. -/
def do_action_go {α : Type} (action path : String) (args : List String) :
    List (Filesystem α) → Option Exc → Except Exc α
  | [], first? =>
    match first? with
    | none => Except.error (Exc.ioError (genericMsg action path args))
    | some e => Except.error e
  | fs :: rest, first? =>
    if fs.can_handle_path path then
      match callAction fs action path args with
      | Except.ok v => Except.ok v
      | Except.error e =>
        if e.isIOError then
          do_action_go action path args rest
            (match first? with
             | none => some e
             | some f => some f)
        else
          Except.error e
    else
      do_action_go action path args rest first?

/-- `CompositeFilesystem._do_action(action, path, *args)` over a backend
registry: the loop started with `first_exception = None`. -/
def do_action {α : Type} (fss : List (Filesystem α)) (action path : String)
    (args : List String) : Except Exc α :=
  do_action_go action path args fss none

/-- Instrumented `_do_action` loop: same result as `do_action_go`, plus the
list of registry positions (from start index `i`) on which the operation was
actually invoked (capability checks that answer `false` invoke nothing). -/
def do_actionT_go {α : Type} (action path : String) (args : List String) :
    List (Filesystem α) → Nat → Option Exc → Except Exc α × List Nat
  | [], _, first? =>
    (match first? with
     | none => Except.error (Exc.ioError (genericMsg action path args))
     | some e => Except.error e, [])
  | fs :: rest, i, first? =>
    if fs.can_handle_path path then
      match callAction fs action path args with
      | Except.ok v => (Except.ok v, [i])
      | Except.error e =>
        if e.isIOError then
          let r := do_actionT_go action path args rest (i + 1)
            (match first? with
             | none => some e
             | some f => some f)
          (r.1, i :: r.2)
        else (Except.error e, [i])
    else
      do_actionT_go action path args rest (i + 1) first?

/-- Instrumented `_do_action`: result plus the registry positions attempted. -/
def do_actionT {α : Type} (fss : List (Filesystem α)) (action path : String)
    (args : List String) : Except Exc α × List Nat :=
  do_actionT_go action path args fss 0 none

/-- The dispatcher instance: `CompositeFilesystem.__init__` stores the tuple
of constructor arguments in `self.filesystems`, and that is its only state
(no method of the class assigns any further attribute). -/
structure CompositeFilesystem (α : Type) where
  filesystems : List (Filesystem α)

/-- `CompositeFilesystem(*filesystems)`. -/
def CompositeFilesystem.init {α : Type} (filesystems : List (Filesystem α)) :
    CompositeFilesystem α :=
  ⟨filesystems⟩

/-- The body of `CompositeFilesystem.__getattr__`: forward the name to the
first child with `hasattr(fs, name)`, returning `getattr(fs, name)`; raise
`AttributeError(name)` when no child has it. -/
def composite_getattr {α : Type} (name : String) :
    List (Filesystem α) → Except Exc (String → List String → Except Exc α)
  | [] => Except.error (Exc.attributeError name)
  | fs :: rest =>
    match fs.methods name with
    | some m => Except.ok m
    | none => composite_getattr name rest

/-- Instrumented `__getattr__` body: same result, plus the registry positions
(from start index `i`) on which `hasattr` was queried. -/
def composite_getattrT {α : Type} (name : String) :
    List (Filesystem α) → Nat →
      Except Exc (String → List String → Except Exc α) × List Nat
  | [], _ => (Except.error (Exc.attributeError name), [])
  | fs :: rest, i =>
    match fs.methods name with
    | some m => (Except.ok m, [i])
    | none =>
      let r := composite_getattrT name rest (i + 1)
      (r.1, i :: r.2)

/-- One attribute access `c.name` falling through to `__getattr__`, as a
state-passing operation on the dispatcher instance: the body of
`__getattr__` assigns nothing, so the instance comes back unchanged and
nothing is cached. -/
def getattr_access {α : Type} (c : CompositeFilesystem α) (name : String) :
    (Except Exc (String → List String → Except Exc α) × List Nat) ×
      CompositeFilesystem α :=
  (composite_getattrT name c.filesystems 0, c)

/-- `_do_action` as a state-passing operation on the dispatcher instance:
its body assigns no attribute, so the instance comes back unchanged. -/
def do_action_run {α : Type} (c : CompositeFilesystem α) (action path : String)
    (args : List String) : Except Exc α × CompositeFilesystem α :=
  (do_action c.filesystems action path args, c)

/-- The attribute names found on a `CompositeFilesystem` instance by normal
lookup (its declared public surface plus internals), for which `__getattr__`
is never invoked. -/
def declaredSurface : List String :=
  ["filesystems", "du", "ls", "mkdir", "path_exists", "path_join", "rm",
   "touchz", "md5sum", "cat", "_cat_file", "_do_action", "__init__",
   "__getattr__"]

/-- `CompositeFilesystem.du(path_glob)`. -/
def du {α : Type} (c : CompositeFilesystem α) (path_glob : String) :
    Except Exc α :=
  do_action c.filesystems "du" path_glob []

/-- `CompositeFilesystem.ls(path_glob)`. -/
def ls {α : Type} (c : CompositeFilesystem α) (path_glob : String) :
    Except Exc α :=
  do_action c.filesystems "ls" path_glob []

/-- `CompositeFilesystem.mkdir(path)`. -/
def mkdir {α : Type} (c : CompositeFilesystem α) (path : String) :
    Except Exc α :=
  do_action c.filesystems "mkdir" path []

/-- `CompositeFilesystem.path_exists(path_glob)`. -/
def path_exists {α : Type} (c : CompositeFilesystem α) (path_glob : String) :
    Except Exc α :=
  do_action c.filesystems "path_exists" path_glob []

/-- `CompositeFilesystem.path_join(dirname, filename)`. -/
def path_join {α : Type} (c : CompositeFilesystem α)
    (dirname filename : String) : Except Exc α :=
  do_action c.filesystems "path_join" dirname [filename]

/-- `CompositeFilesystem.rm(path_glob)`. -/
def rm {α : Type} (c : CompositeFilesystem α) (path_glob : String) :
    Except Exc α :=
  do_action c.filesystems "rm" path_glob []

/-- `CompositeFilesystem.touchz(path)`. -/
def touchz {α : Type} (c : CompositeFilesystem α) (path : String) :
    Except Exc α :=
  do_action c.filesystems "touchz" path []

/-- `CompositeFilesystem.md5sum(path_glob)`. -/
def md5sum {α : Type} (c : CompositeFilesystem α) (path_glob : String) :
    Except Exc α :=
  do_action c.filesystems "md5sum" path_glob []

/-- What a backend's `_cat_file(path)` produces once dispatch succeeded: the
finite sequence of lines the underlying iterator will yield, followed
optionally by an exception it raises mid-stream (`none` = clean end). -/
abbrev CatStream := List String × Option Exc

/-- The execution state of the generator returned by
`CompositeFilesystem._cat_file`: Python runs none of a generator's body at
call time (`notStarted`); after the first `next` the dispatched stream is
being consumed (`running`); once the body returned or raised, the generator
is `closed` and every further `next` raises `StopIteration`. -/
inductive GenStatus where
  | notStarted
  | running (remaining : List String) (pending : Option Exc)
  | closed
  deriving DecidableEq

/-- The generator object returned by calling `_cat_file(path)`: it captures
the registry and the path, and starts in `notStarted`. -/
structure CatGen where
  fss : List (Filesystem CatStream)
  path : String
  state : GenStatus

/-- What one `next(gen)` can produce: a yielded line, `StopIteration`, or a
propagated exception. -/
inductive NextResult where
  | yielded (line : String)
  | stopIteration
  | raised (e : Exc)
  deriving DecidableEq

/-- Deliver the next element out of an already-dispatched stream: yield the
next line; at the end of the lines, raise the pending mid-stream exception if
there is one, else `StopIteration`; either terminal step closes the
generator. -/
def stepRunning (g : CatGen) : List String → Option Exc → NextResult × CatGen
  | line :: rest, pending =>
    (NextResult.yielded line, { g with state := GenStatus.running rest pending })
  | [], some e => (NextResult.raised e, { g with state := GenStatus.closed })
  | [], none => (NextResult.stopIteration, { g with state := GenStatus.closed })

/-- `next(gen)` for the `_cat_file` generator. On the first `next`, the body
`for line in self._do_action('_cat_file', path): yield line` runs the
dispatch; a dispatch failure propagates out of the generator (closing it).
Afterwards the chosen backend's stream is consumed line by line with no
further dispatch; a `closed` generator only raises `StopIteration`. -/
def genNext (g : CatGen) : NextResult × CatGen :=
  match g.state with
  | GenStatus.notStarted =>
    match do_action g.fss "_cat_file" g.path [] with
    | Except.error e => (NextResult.raised e, { g with state := GenStatus.closed })
    | Except.ok (lines, pending) => stepRunning g lines pending
  | GenStatus.running rem pending => stepRunning g rem pending
  | GenStatus.closed =>
    (NextResult.stopIteration, { g with state := GenStatus.closed })

/-- Iterate `next(gen)` a given number of times, collecting the outcomes. -/
def genTake : Nat → CatGen → List NextResult × CatGen
  | 0, g => ([], g)
  | n + 1, g =>
    let r := genNext g
    let rs := genTake n r.2
    (r.1 :: rs.1, rs.2)

/-- Calling `CompositeFilesystem._cat_file(path)`: a generator function call
only allocates the generator object; no statement of its body runs. -/
def cat_file (c : CompositeFilesystem CatStream) (path : String) : CatGen :=
  ⟨c.filesystems, path, GenStatus.notStarted⟩

/-- A backend that claims every path and answers every method with `v`. -/
def okFS (v : String) : Filesystem String :=
  ⟨fun _ => true, fun _ => some (fun _ _ => Except.ok v)⟩

/-- A backend that claims every path and fails every method with
`IOError(msg)`. -/
def ioFailFS (msg : String) : Filesystem String :=
  ⟨fun _ => true, fun _ => some (fun _ _ => Except.error (Exc.ioError msg))⟩

/-- A backend that claims every path and fails every method with a
`TypeError` (a non-I/O, programming-error-class exception). -/
def typeErrFS (msg : String) : Filesystem String :=
  ⟨fun _ => true, fun _ => some (fun _ _ =>
    Except.error (Exc.otherError "TypeError" msg))⟩

/-- A backend that declines ownership of every path (its methods exist but
are never reached through `_do_action`). -/
def declineFS : Filesystem String :=
  ⟨fun _ => false, fun _ => some (fun _ _ => Except.ok "unreachable")⟩

/-- A backend with no methods at all that declines every path. -/
def fsA : Filesystem String := ⟨fun _ => false, fun _ => none⟩

/-- A second method-less backend that declines every path. -/
def fsB : Filesystem String := ⟨fun _ => false, fun _ => none⟩

/-- The implementation of the extension operation `extra_op` exposed only by
`fsC`. -/
def extraOpImpl : String → List String → Except Exc String :=
  fun _ _ => Except.ok "from fsC"

/-- A backend exposing only the extension operation `extra_op`. -/
def fsC : Filesystem String :=
  ⟨fun _ => false, fun n => if n = "extra_op" then some extraOpImpl else none⟩

/-- A cat-capable backend declining every path. -/
def declineCatFS : Filesystem CatStream :=
  ⟨fun _ => false, fun _ => none⟩

/-- A cat-capable backend that claims every path and streams two lines. -/
def catOkFS : Filesystem CatStream :=
  ⟨fun _ => true, fun n =>
    if n = "_cat_file" then
      some (fun _ _ => Except.ok (["line a", "line b"], none))
    else none⟩

/-! ## General lemmas about the embedding -/

/-- The instrumented dispatch loop computes the same result as the plain one. -/
theorem do_actionT_go_fst {α : Type} (action path : String) (args : List String) :
    ∀ (fss : List (Filesystem α)) (i : Nat) (first? : Option Exc),
      (do_actionT_go action path args fss i first?).1 =
        do_action_go action path args fss first? := by
  intro fss
  induction fss with
  | nil => intro i first?; cases first? <;> rfl
  | cons fs rest ih =>
    intro i first?
    cases hcap : fs.can_handle_path path with
    | false => simp [do_actionT_go, do_action_go, hcap, ih (i + 1) first?]
    | true =>
      cases hcall : callAction fs action path args with
      | ok v => simp [do_actionT_go, do_action_go, hcap, hcall]
      | error e =>
        cases hio : e.isIOError with
        | false => simp [do_actionT_go, do_action_go, hcap, hcall, hio]
        | true =>
          simp only [do_actionT_go, do_action_go, hcap, hcall, hio, if_true]
          simp [ih (i + 1)]

/-- The instrumented attribute lookup computes the same result as the plain
`__getattr__` body. -/
theorem composite_getattrT_fst {α : Type} (name : String) :
    ∀ (fss : List (Filesystem α)) (i : Nat),
      (composite_getattrT name fss i).1 = composite_getattr name fss := by
  intro fss
  induction fss with
  | nil => intro i; rfl
  | cons fs rest ih =>
    intro i
    cases h : fs.methods name with
    | some m => simp [composite_getattrT, composite_getattr, h]
    | none => simp [composite_getattrT, composite_getattr, h, ih (i + 1)]

/-- Backends that decline ownership are skipped without touching the
`first_exception` register. -/
theorem do_action_go_skip_noncap {α : Type} (action path : String)
    (args : List String) :
    ∀ pre : List (Filesystem α),
      (∀ f ∈ pre, f.can_handle_path path = false) →
      ∀ (rest : List (Filesystem α)) (first? : Option Exc),
        do_action_go action path args (pre ++ rest) first? =
          do_action_go action path args rest first? := by
  intro pre
  induction pre with
  | nil => intro _ rest first?; rfl
  | cons p pre ih =>
    intro hpre rest first?
    have hp : p.can_handle_path path = false := hpre p (List.mem_cons_self p pre)
    simp only [List.cons_append, do_action_go, hp, Bool.false_eq_true,
      if_false]
    exact ih (fun f hf => hpre f (List.mem_cons_of_mem p hf)) rest first?

/-- A leading segment whose capable backends all fail with `IOError` is
passed over, leaving the loop on the remaining backends with some register
contents. -/
theorem do_action_go_skip_failpre {α : Type} (action path : String)
    (args : List String) :
    ∀ pre : List (Filesystem α),
      (∀ f ∈ pre, f.can_handle_path path = true →
        ∃ e, e.isIOError = true ∧
          callAction f action path args = Except.error e) →
      ∀ (rest : List (Filesystem α)) (first? : Option Exc),
        ∃ g : Option Exc,
          do_action_go action path args (pre ++ rest) first? =
            do_action_go action path args rest g := by
  intro pre
  induction pre with
  | nil => intro _ rest first?; exact ⟨first?, rfl⟩
  | cons p pre ih =>
    intro hpre rest first?
    have hpre' := fun f hf => hpre f (List.mem_cons_of_mem p hf)
    cases hcap : p.can_handle_path path with
    | false =>
      simp only [List.cons_append, do_action_go, hcap, Bool.false_eq_true,
        if_false]
      exact ih hpre' rest first?
    | true =>
      obtain ⟨e, hio, herr⟩ := hpre p (List.mem_cons_self p pre) hcap
      simp only [List.cons_append, do_action_go, hcap, herr, hio, if_true]
      exact ih hpre' rest _

/-- When every capable backend fails with an `IOError`, the loop ends by
re-raising exactly the exception already recorded in the register. -/
theorem do_action_go_all_fail {α : Type} (action path : String)
    (args : List String) :
    ∀ fss : List (Filesystem α),
      (∀ f ∈ fss, f.can_handle_path path = true →
        ∃ e, e.isIOError = true ∧
          callAction f action path args = Except.error e) →
      ∀ e0 : Exc,
        do_action_go action path args fss (some e0) = Except.error e0 := by
  intro fss
  induction fss with
  | nil => intro _ e0; rfl
  | cons f fss ih =>
    intro hall e0
    have hall' := fun f' hf => hall f' (List.mem_cons_of_mem f hf)
    cases hcap : f.can_handle_path path with
    | false =>
      simp only [do_action_go, hcap, Bool.false_eq_true, if_false]
      exact ih hall' e0
    | true =>
      obtain ⟨e, hio, herr⟩ := hall f (List.mem_cons_self f fss) hcap
      simp only [do_action_go, hcap, herr, hio, if_true]
      exact ih hall' e0

/-- When no backend at all claims the path, `_do_action` raises the generic
`IOError` naming the action, the path and the arguments. -/
theorem do_action_no_owner {α : Type} (action path : String)
    (args : List String) (fss : List (Filesystem α))
    (h : ∀ fs ∈ fss, fs.can_handle_path path = false) :
    do_action fss action path args =
      Except.error (Exc.ioError (genericMsg action path args)) := by
  have h2 := do_action_go_skip_noncap action path args fss h [] none
  rw [List.append_nil] at h2
  exact h2

/-- If the dispatch loop reaches a capable backend that either succeeds or
raises a non-I/O exception, every attempted registry position is at most the
position of that backend (no later candidate is attempted). -/
theorem do_actionT_go_bound {α : Type} (action path : String)
    (args : List String) (fs : Filesystem α) (post : List (Filesystem α))
    (hcap : fs.can_handle_path path = true)
    (hstop : (∃ v, callAction fs action path args = Except.ok v) ∨
      (∃ e, callAction fs action path args = Except.error e ∧
        e.isIOError = false)) :
    ∀ pre : List (Filesystem α),
      (∀ f ∈ pre, f.can_handle_path path = true →
        ∃ e, e.isIOError = true ∧
          callAction f action path args = Except.error e) →
      ∀ (i : Nat) (first? : Option Exc),
        ∀ j ∈ (do_actionT_go action path args (pre ++ fs :: post) i first?).2,
          j ≤ i + pre.length := by
  intro pre
  induction pre with
  | nil =>
    intro _ i first? j hj
    rcases hstop with ⟨v, hv⟩ | ⟨e, he, hnio⟩
    · simp only [List.nil_append, do_actionT_go, hcap, hv, if_true,
        List.mem_singleton] at hj
      simp [hj]
    · simp only [List.nil_append, do_actionT_go, hcap, he, hnio, if_true,
        Bool.false_eq_true, if_false, List.mem_singleton] at hj
      simp [hj]
  | cons p pre ih =>
    intro hpre i first? j hj
    have hpre' := fun f hf => hpre f (List.mem_cons_of_mem p hf)
    cases hcapp : p.can_handle_path path with
    | false =>
      simp only [List.cons_append, do_actionT_go, hcapp, Bool.false_eq_true,
        if_false] at hj
      have hb := ih hpre' (i + 1) first? j hj
      simp only [List.length_cons]
      omega
    | true =>
      obtain ⟨e, hio, herr⟩ := hpre p (List.mem_cons_self p pre) hcapp
      simp only [List.cons_append, do_actionT_go, hcapp, herr, hio, if_true,
        List.mem_cons] at hj
      rcases hj with rfl | hj'
      · simp only [List.length_cons]; omega
      · have hb := ih hpre' (i + 1) _ j hj'
        simp only [List.length_cons]
        omega

/-- `stepRunning` ignores the generator's previous status field. -/
theorem stepRunning_state_irrel (fss : List (Filesystem CatStream))
    (path : String) (s s' : GenStatus) (lines : List String)
    (pending : Option Exc) :
    stepRunning ⟨fss, path, s⟩ lines pending =
      stepRunning ⟨fss, path, s'⟩ lines pending := by
  cases lines with
  | nil => cases pending <;> rfl
  | cons l rest => rfl

/-- Draining a generator already running on a clean stream yields exactly the
remaining lines followed by `StopIteration`, and closes the generator. -/
theorem genTake_running (fss : List (Filesystem CatStream)) (path : String) :
    ∀ lines : List String,
      genTake (lines.length + 1) ⟨fss, path, GenStatus.running lines none⟩ =
        (lines.map NextResult.yielded ++ [NextResult.stopIteration],
          ⟨fss, path, GenStatus.closed⟩) := by
  intro lines
  induction lines with
  | nil => rfl
  | cons l rest ih =>
    show (NextResult.yielded l ::
        (genTake (rest.length + 1) ⟨fss, path, GenStatus.running rest none⟩).1,
      (genTake (rest.length + 1) ⟨fss, path, GenStatus.running rest none⟩).2) = _
    rw [ih]
    rfl

/-! ## The claims -/

/-- C1: for every path and pass-through operation, if a capable backend
succeeds and every earlier capable backend fails with an I/O-class error,
the dispatcher returns that backend's result unchanged — the first capable
backend in registry order that succeeds wins, no later candidate is
attempted (every attempted registry position is at most that backend's
position), and the recorded earlier I/O failures are not visible to the
caller. -/
theorem dispatch_returns_first_capable_success {α : Type}
    (action path : String) (args : List String)
    (pre post : List (Filesystem α)) (fs : Filesystem α) (v : α)
    (hpre : ∀ f ∈ pre, f.can_handle_path path = true →
      ∃ e, e.isIOError = true ∧ callAction f action path args = Except.error e)
    (hcap : fs.can_handle_path path = true)
    (hok : callAction fs action path args = Except.ok v) :
    do_action (pre ++ fs :: post) action path args = Except.ok v ∧
    ∀ j ∈ (do_actionT (pre ++ fs :: post) action path args).2,
      j ≤ pre.length := by
  constructor
  · obtain ⟨g, hg⟩ :=
      do_action_go_skip_failpre action path args pre hpre (fs :: post) none
    show do_action_go action path args (pre ++ fs :: post) none = Except.ok v
    rw [hg]
    simp [do_action_go, hcap, hok]
  · intro j hj
    have hb := do_actionT_go_bound action path args fs post hcap
      (Or.inl ⟨v, hok⟩) pre hpre 0 none j hj
    simpa using hb

/-- Witness for C1: backend 0 claims the path but fails with an `IOError`,
backend 1 succeeds; the dispatcher returns backend 1's value and attempts no
backend past position 1. -/
theorem dispatch_returns_first_capable_success_witness :
    do_action ([ioFailFS "disk down"] ++ okFS "size 42" :: [okFS "later"])
        "du" "/data/x" [] = Except.ok "size 42" ∧
    ∀ j ∈ (do_actionT ([ioFailFS "disk down"] ++ okFS "size 42" :: [okFS "later"])
        "du" "/data/x" []).2, j ≤ [ioFailFS "disk down"].length :=
  dispatch_returns_first_capable_success "du" "/data/x" []
    [ioFailFS "disk down"] [okFS "later"] (okFS "size 42") "size 42"
    (by
      intro f hf hc
      rw [List.mem_singleton] at hf
      subst hf
      exact ⟨Exc.ioError "disk down", rfl, rfl⟩)
    rfl rfl

/-- C2: for every path and pass-through operation, when the first capable
backend fails with an I/O-class error and every other capable backend also
fails with an I/O-class error, the dispatcher re-raises exactly the first
capable backend's original exception — never a later backend's. -/
theorem dispatch_reraises_first_io_failure {α : Type}
    (action path : String) (args : List String)
    (pre post : List (Filesystem α)) (fs : Filesystem α) (e0 : Exc)
    (hpre : ∀ f ∈ pre, f.can_handle_path path = false)
    (hcap : fs.can_handle_path path = true)
    (h0 : callAction fs action path args = Except.error e0)
    (hio : e0.isIOError = true)
    (hpost : ∀ f ∈ post, f.can_handle_path path = true →
      ∃ e, e.isIOError = true ∧
        callAction f action path args = Except.error e) :
    do_action (pre ++ fs :: post) action path args = Except.error e0 := by
  show do_action_go action path args (pre ++ fs :: post) none = Except.error e0
  rw [do_action_go_skip_noncap action path args pre hpre (fs :: post) none]
  simp only [do_action_go, hcap, h0, hio, if_true]
  exact do_action_go_all_fail action path args post hpost e0

/-- Witness for C2: backend 0 declines the path, backend 1 fails with
`IOError('b1 down')`, backend 2 fails with `IOError('b2 down')`; the caller
receives exactly backend 1's exception. -/
theorem dispatch_reraises_first_io_failure_witness :
    do_action ([declineFS] ++ ioFailFS "b1 down" :: [ioFailFS "b2 down"])
      "rm" "/data/x" [] = Except.error (Exc.ioError "b1 down") :=
  dispatch_reraises_first_io_failure "rm" "/data/x" []
    [declineFS] [ioFailFS "b2 down"] (ioFailFS "b1 down")
    (Exc.ioError "b1 down")
    (by
      intro f hf
      rw [List.mem_singleton] at hf
      subst hf
      rfl)
    rfl rfl rfl
    (by
      intro f hf hc
      rw [List.mem_singleton] at hf
      subst hf
      exact ⟨Exc.ioError "b2 down", rfl, rfl⟩)

/-- C3: when no backend claims the path (including the empty registry), every
pass-through operation deterministically raises the generic failure, an
`IOError` whose message names the attempted operation and the path. -/
theorem dispatch_no_owner_generic_failure {α : Type}
    (fss : List (Filesystem α)) (action path : String) (args : List String)
    (h : ∀ fs ∈ fss, fs.can_handle_path path = false) :
    do_action fss action path args =
      Except.error (Exc.ioError (genericMsg action path args)) ∧
    (∃ s t : List Char,
      (genericMsg action path args).data = s ++ (action.data ++ t)) ∧
    (∃ u w : List Char,
      (genericMsg action path args).data = u ++ (path.data ++ w)) := by
  refine ⟨do_action_no_owner action path args fss h,
    ⟨"Could not ".data, (": " ++ path ++ " " ++ pyTupleRepr args).data, ?_⟩,
    ⟨("Could not " ++ action ++ ": ").data, (" " ++ pyTupleRepr args).data,
      ?_⟩⟩ <;>
  · simp [genericMsg, String.data_append, List.append_assoc]

/-- Witness for C3: with two backends that both decline ownership, `rm` on
`weird://nowhere` raises the generic `IOError` referencing `rm` and
`weird://nowhere`. -/
theorem dispatch_no_owner_generic_failure_witness :
    do_action [declineFS, declineFS] "rm" "weird://nowhere" [] =
      Except.error (Exc.ioError (genericMsg "rm" "weird://nowhere" [])) ∧
    (∃ s t : List Char,
      (genericMsg "rm" "weird://nowhere" []).data =
        s ++ ("rm".data ++ t)) ∧
    (∃ u w : List Char,
      (genericMsg "rm" "weird://nowhere" []).data =
        u ++ ("weird://nowhere".data ++ w)) :=
  dispatch_no_owner_generic_failure [declineFS, declineFS]
    "rm" "weird://nowhere" []
    (by
      intro fs hfs
      rcases List.mem_cons.mp hfs with h1 | h1
      · subst h1; rfl
      · rw [List.mem_singleton] at h1; subst h1; rfl)

/-- C4 counterexample: the generic "unhandled path" failure raised when no
backend claims the path is an `IOError` — the very same exception class
(kind) as a capable backend's own I/O failure — so the two concrete runs
below produce failures of identical kind and the claim that the kind alone
distinguishes "no owner" from "owner failed" is false. -/
theorem generic_failure_kind_not_distinct_cex :
    do_action [declineFS] "rm" "weird://nowhere" [] =
      Except.error (Exc.ioError (genericMsg "rm" "weird://nowhere" [])) ∧
    do_action [ioFailFS "owner failed"] "rm" "weird://nowhere" [] =
      Except.error (Exc.ioError "owner failed") ∧
    (Exc.ioError (genericMsg "rm" "weird://nowhere" [])).kind =
      (Exc.ioError "owner failed").kind ∧
    (Exc.ioError (genericMsg "rm" "weird://nowhere" [])).isIOError =
      (Exc.ioError "owner failed").isIOError :=
  ⟨rfl, rfl, rfl, rfl⟩

/-- C4 amended: the generic "unhandled path" failure is itself of the I/O
error class — its kind equals the kind of every backend I/O-class failure —
so a caller distinguishes "no owner" from "owner failed" only by the
message, which names the attempted operation and the path. -/
theorem generic_failure_same_io_kind {α : Type}
    (fss : List (Filesystem α)) (action path : String) (args : List String)
    (h : ∀ fs ∈ fss, fs.can_handle_path path = false) :
    do_action fss action path args =
      Except.error (Exc.ioError (genericMsg action path args)) ∧
    (Exc.ioError (genericMsg action path args)).kind = "IOError" ∧
    (∀ e : Exc, e.isIOError = true → e.kind = "IOError") ∧
    (∃ s t : List Char,
      (genericMsg action path args).data = s ++ (action.data ++ t)) ∧
    (∃ u w : List Char,
      (genericMsg action path args).data = u ++ (path.data ++ w)) := by
  refine ⟨do_action_no_owner action path args fss h, rfl, ?_,
    ⟨"Could not ".data, (": " ++ path ++ " " ++ pyTupleRepr args).data, ?_⟩,
    ⟨("Could not " ++ action ++ ": ").data, (" " ++ pyTupleRepr args).data,
      ?_⟩⟩
  · intro e he
    cases e with
    | ioError m => rfl
    | attributeError n => exact absurd he (by simp [Exc.isIOError])
    | otherError c m => exact absurd he (by simp [Exc.isIOError])
  · simp [genericMsg, String.data_append, List.append_assoc]
  · simp [genericMsg, String.data_append, List.append_assoc]

/-- Witness for the amended C4: the no-owner `touchz` failure is an
`IOError` of kind `IOError`, like any backend I/O failure. -/
theorem generic_failure_same_io_kind_witness :
    do_action [declineFS] "touchz" "weird://nowhere" [] =
      Except.error (Exc.ioError (genericMsg "touchz" "weird://nowhere" [])) ∧
    (Exc.ioError (genericMsg "touchz" "weird://nowhere" [])).kind =
      "IOError" ∧
    (∀ e : Exc, e.isIOError = true → e.kind = "IOError") ∧
    (∃ s t : List Char,
      (genericMsg "touchz" "weird://nowhere" []).data =
        s ++ ("touchz".data ++ t)) ∧
    (∃ u w : List Char,
      (genericMsg "touchz" "weird://nowhere" []).data =
        u ++ ("weird://nowhere".data ++ w)) :=
  generic_failure_same_io_kind [declineFS] "touchz" "weird://nowhere" []
    (by
      intro fs hfs
      rw [List.mem_singleton] at hfs
      subst hfs
      rfl)

/-- C5: a capable backend's non-I/O-class exception propagates immediately to
the caller: even when every earlier capable backend failed with a recorded
I/O error and later backends would succeed, the dispatcher raises exactly
that exception, and no registry position past the raising backend is
attempted. -/
theorem non_io_failure_propagates_immediately {α : Type}
    (action path : String) (args : List String)
    (pre post : List (Filesystem α)) (fs : Filesystem α) (e : Exc)
    (hpre : ∀ f ∈ pre, f.can_handle_path path = true →
      ∃ e', e'.isIOError = true ∧
        callAction f action path args = Except.error e')
    (hcap : fs.can_handle_path path = true)
    (herr : callAction fs action path args = Except.error e)
    (hnio : e.isIOError = false) :
    do_action (pre ++ fs :: post) action path args = Except.error e ∧
    ∀ j ∈ (do_actionT (pre ++ fs :: post) action path args).2,
      j ≤ pre.length := by
  constructor
  · obtain ⟨g, hg⟩ :=
      do_action_go_skip_failpre action path args pre hpre (fs :: post) none
    show do_action_go action path args (pre ++ fs :: post) none =
      Except.error e
    rw [hg]
    simp [do_action_go, hcap, herr, hnio]
  · intro j hj
    have hb := do_actionT_go_bound action path args fs post hcap
      (Or.inr ⟨e, herr, hnio⟩) pre hpre 0 none j hj
    simpa using hb

/-- Witness for C5: backend 0 fails with an `IOError`, backend 1 raises a
`TypeError`; the `TypeError` propagates (replacing nothing) and backend 2,
which would succeed, is never attempted. -/
theorem non_io_failure_propagates_immediately_witness :
    do_action ([ioFailFS "io down"] ++ typeErrFS "bad argument" ::
        [okFS "would succeed"]) "ls" "/data/x" [] =
      Except.error (Exc.otherError "TypeError" "bad argument") ∧
    ∀ j ∈ (do_actionT ([ioFailFS "io down"] ++ typeErrFS "bad argument" ::
        [okFS "would succeed"]) "ls" "/data/x" []).2,
      j ≤ [ioFailFS "io down"].length :=
  non_io_failure_propagates_immediately "ls" "/data/x" []
    [ioFailFS "io down"] [okFS "would succeed"] (typeErrFS "bad argument")
    (Exc.otherError "TypeError" "bad argument")
    (by
      intro f hf hc
      rw [List.mem_singleton] at hf
      subst hf
      exact ⟨Exc.ioError "io down", rfl, rfl⟩)
    rfl rfl rfl

/-- C6 counterexample: unknown-operation lookups are not memoized. With the
name `extra_op` exposed only by the backend at registry position 2, a second
access performed after a first one (which left the instance unchanged) still
queries positions 0, 1 and 2 — it re-scans the registry, re-querying the
earlier positions, contradicting the claimed memoization. -/
theorem getattr_lookup_not_memoized_cex :
    "extra_op" ∉ declaredSurface ∧
    (getattr_access
      (getattr_access (CompositeFilesystem.init [fsA, fsB, fsC])
        "extra_op").2 "extra_op").1.2 = [0, 1, 2] ∧
    0 ∈ (getattr_access
      (getattr_access (CompositeFilesystem.init [fsA, fsB, fsC])
        "extra_op").2 "extra_op").1.2 ∧
    1 ∈ (getattr_access
      (getattr_access (CompositeFilesystem.init [fsA, fsB, fsC])
        "extra_op").2 "extra_op").1.2 :=
  ⟨by decide, rfl, by decide, by decide⟩

/-- C6 amended: `__getattr__` caches nothing — an access leaves the
dispatcher instance unchanged, so every subsequent access to the same name
repeats the identical scan of the registry (same queried positions, same
result), and because the registry is immutable the lookup deterministically
resolves to the same binding as the plain `__getattr__` body every time. -/
theorem getattr_lookup_rescans_deterministically {α : Type}
    (c : CompositeFilesystem α) (name : String) :
    (getattr_access c name).2 = c ∧
    getattr_access ((getattr_access c name).2) name =
      getattr_access c name ∧
    (getattr_access c name).1.1 = composite_getattr name c.filesystems :=
  ⟨rfl, rfl, composite_getattrT_fst name c.filesystems 0⟩

/-- C7: for an operation name outside the dispatcher's declared surface,
`__getattr__` binds the implementation of the first backend in registry
order exposing that name, with no per-path capability filtering (the result
is invariant under arbitrary replacement of every backend's
`can_handle_path`), and when no backend exposes the name it raises
`AttributeError(name)`, a non-I/O programming-error-class failure naming the
operation. -/
theorem unknown_op_first_exposer_binding {α : Type} (name : String)
    (hname : name ∉ declaredSurface) :
    (∀ (pre post : List (Filesystem α)) (fs : Filesystem α)
        (m : String → List String → Except Exc α),
      (∀ f ∈ pre, f.methods name = none) → fs.methods name = some m →
        composite_getattr name (pre ++ fs :: post) = Except.ok m) ∧
    (∀ fss : List (Filesystem α), (∀ f ∈ fss, f.methods name = none) →
      composite_getattr name fss = Except.error (Exc.attributeError name) ∧
        (Exc.attributeError name).isIOError = false) ∧
    (∀ (fss : List (Filesystem α)) (q : Filesystem α → String → Bool),
      composite_getattr name (fss.map fun f => ⟨q f, f.methods⟩) =
        composite_getattr name fss) := by
  refine ⟨?_, ?_, ?_⟩
  · intro pre post fs m
    induction pre with
    | nil =>
      intro _ hm
      simp [composite_getattr, hm]
    | cons p pre ih =>
      intro hpre hm
      have hp : p.methods name = none := hpre p (List.mem_cons_self p pre)
      simp only [List.cons_append, composite_getattr, hp]
      exact ih (fun f hf => hpre f (List.mem_cons_of_mem p hf)) hm
  · intro fss
    induction fss with
    | nil => intro _; exact ⟨rfl, rfl⟩
    | cons f fss ih =>
      intro hall
      have hf : f.methods name = none := hall f (List.mem_cons_self f fss)
      have hrec := ih (fun f' hf' => hall f' (List.mem_cons_of_mem f hf'))
      simpa [composite_getattr, hf] using hrec
  · intro fss q
    induction fss with
    | nil => rfl
    | cons f fss ih =>
      simp only [List.map_cons, composite_getattr]
      cases h : f.methods name with
      | some m => rfl
      | none => exact ih

/-- Witness for C7: `extra_op` is outside the declared surface and exposed
only by `fsC`; the lookup over `[fsA, fsB, fsC]` binds `fsC`'s
implementation, the lookup over `[fsA, fsB]` raises the non-I/O
`AttributeError('extra_op')`, and replacing every ownership predicate by
"claim everything" changes nothing. -/
theorem unknown_op_first_exposer_binding_witness :
    composite_getattr "extra_op" ([fsA, fsB] ++ fsC :: []) =
      Except.ok extraOpImpl ∧
    (composite_getattr "extra_op" [fsA, fsB] =
      Except.error (Exc.attributeError "extra_op") ∧
      (Exc.attributeError "extra_op").isIOError = false) ∧
    composite_getattr "extra_op"
        ([fsA, fsB, fsC].map fun f => ⟨fun _ => true, f.methods⟩) =
      composite_getattr "extra_op" [fsA, fsB, fsC] := by
  have h := unknown_op_first_exposer_binding (α := String) "extra_op"
    (by decide)
  refine ⟨h.1 [fsA, fsB] [] fsC extraOpImpl ?_ rfl,
    h.2.1 [fsA, fsB] ?_,
    h.2.2 [fsA, fsB, fsC] (fun _ _ => true)⟩
  · intro f hf
    rcases List.mem_cons.mp hf with h1 | h1
    · subst h1; rfl
    · rw [List.mem_singleton] at h1; subst h1; rfl
  · intro f hf
    rcases List.mem_cons.mp hf with h1 | h1
    · subst h1; rfl
    · rw [List.mem_singleton] at h1; subst h1; rfl

/-- C8: the `_cat_file` generator is a lazy, forward-only, single-pass
stream: when the dispatched open succeeds with a clean stream of lines,
draining the generator yields exactly those lines and then `StopIteration`,
after which the generator is closed and any further `next` on a closed
generator yields no further lines; and once the generator is running, each
step is independent of the registry (no fallback to other backends), so a
mid-stream exception propagates directly to the caller. -/
theorem cat_file_single_pass_stream (fss : List (Filesystem CatStream))
    (path : String) (lines : List String)
    (hopen : do_action fss "_cat_file" path [] = Except.ok (lines, none)) :
    (genTake (lines.length + 1)
        (cat_file (CompositeFilesystem.init fss) path)).1 =
      lines.map NextResult.yielded ++ [NextResult.stopIteration] ∧
    (genTake (lines.length + 1)
        (cat_file (CompositeFilesystem.init fss) path)).2.state =
      GenStatus.closed ∧
    (∀ g : CatGen, g.state = GenStatus.closed →
      (genNext g).1 = NextResult.stopIteration) ∧
    (∀ (fss₁ fss₂ : List (Filesystem CatStream)) (p₁ p₂ : String)
        (rem : List String) (pending : Option Exc),
      (genNext ⟨fss₁, p₁, GenStatus.running rem pending⟩).1 =
        (genNext ⟨fss₂, p₂, GenStatus.running rem pending⟩).1) ∧
    (∀ (fss' : List (Filesystem CatStream)) (p' : String) (e : Exc),
      genNext ⟨fss', p', GenStatus.running [] (some e)⟩ =
        (NextResult.raised e, ⟨fss', p', GenStatus.closed⟩)) := by
  have hstep : genNext (cat_file (CompositeFilesystem.init fss) path) =
      genNext ⟨fss, path, GenStatus.running lines none⟩ := by
    have h1 : genNext (cat_file (CompositeFilesystem.init fss) path) =
        stepRunning ⟨fss, path, GenStatus.notStarted⟩ lines none := by
      simp [genNext, cat_file, CompositeFilesystem.init, hopen]
    rw [h1]
    exact stepRunning_state_irrel fss path GenStatus.notStarted
      (GenStatus.running lines none) lines none
  have htake : genTake (lines.length + 1)
      (cat_file (CompositeFilesystem.init fss) path) =
      genTake (lines.length + 1) ⟨fss, path, GenStatus.running lines none⟩ := by
    simp only [genTake]
    rw [hstep]
  rw [htake, genTake_running fss path lines]
  refine ⟨rfl, rfl, ?_, ?_, ?_⟩
  · intro g hg
    obtain ⟨gf, gp, gs⟩ := g
    have hgs : gs = GenStatus.closed := hg
    subst hgs
    rfl
  · intro fss₁ fss₂ p₁ p₂ rem pending
    cases rem with
    | nil => cases pending <;> rfl
    | cons l rest => rfl
  · intro fss' p' e
    rfl

/-- Witness for C8: a single backend opens `/data/f` with the clean
two-line stream; draining the composed generator yields the two lines then
`StopIteration` and leaves the generator closed. -/
theorem cat_file_single_pass_stream_witness :
    (genTake 3 (cat_file (CompositeFilesystem.init [catOkFS]) "/data/f")).1 =
      [NextResult.yielded "line a", NextResult.yielded "line b",
        NextResult.stopIteration] ∧
    (genTake 3 (cat_file (CompositeFilesystem.init [catOkFS]) "/data/f")).2.state =
      GenStatus.closed ∧
    (∀ g : CatGen, g.state = GenStatus.closed →
      (genNext g).1 = NextResult.stopIteration) ∧
    (∀ (fss₁ fss₂ : List (Filesystem CatStream)) (p₁ p₂ : String)
        (rem : List String) (pending : Option Exc),
      (genNext ⟨fss₁, p₁, GenStatus.running rem pending⟩).1 =
        (genNext ⟨fss₂, p₂, GenStatus.running rem pending⟩).1) ∧
    (∀ (fss' : List (Filesystem CatStream)) (p' : String) (e : Exc),
      genNext ⟨fss', p', GenStatus.running [] (some e)⟩ =
        (NextResult.raised e, ⟨fss', p', GenStatus.closed⟩)) :=
  cat_file_single_pass_stream [catOkFS] "/data/f" ["line a", "line b"] rfl

/-- C9: the registry is fixed at construction as exactly the sequence of
constructor arguments, and no dispatcher operation mutates the instance:
pass-through dispatch and unknown-operation lookup return the instance
unchanged, calling `_cat_file` captures the registry as-is, and advancing
the generator never alters its captured registry or path. -/
theorem dispatcher_state_immutable {α : Type} (fss : List (Filesystem α))
    (c : CompositeFilesystem α) (action path name : String)
    (args : List String) (g : CatGen) (cc : CompositeFilesystem CatStream)
    (p : String) :
    (CompositeFilesystem.init fss).filesystems = fss ∧
    (do_action_run c action path args).2 = c ∧
    (getattr_access c name).2 = c ∧
    (cat_file cc p).fss = cc.filesystems ∧
    (genNext g).2.fss = g.fss ∧
    (genNext g).2.path = g.path := by
  refine ⟨rfl, rfl, rfl, rfl, ?_, ?_⟩ <;>
  · obtain ⟨gf, gp, gs⟩ := g
    cases gs with
    | notStarted =>
      cases hdo : do_action gf "_cat_file" gp [] with
      | error e => simp [genNext, hdo]
      | ok v =>
        obtain ⟨lines, pending⟩ := v
        cases lines with
        | nil => cases pending <;> simp [genNext, hdo, stepRunning]
        | cons l rest => simp [genNext, hdo, stepRunning]
    | running rem pending =>
      cases rem with
      | nil => cases pending <;> simp [genNext, stepRunning]
      | cons l rest => simp [genNext, stepRunning]
    | closed => simp [genNext]

/-- C10: calling `_cat_file` performs no backend dispatch at call time — the
call just allocates a not-yet-started generator capturing registry and path,
and even on a path claimed by zero backends no failure is raised at the
call; the generic no-owner `IOError` surfaces only when the first element is
requested. -/
theorem cat_file_dispatch_deferred (fss : List (Filesystem CatStream))
    (path : String)
    (hnoowner : ∀ fs ∈ fss, fs.can_handle_path path = false) :
    cat_file (CompositeFilesystem.init fss) path =
      ⟨fss, path, GenStatus.notStarted⟩ ∧
    genNext (cat_file (CompositeFilesystem.init fss) path) =
      (NextResult.raised (Exc.ioError (genericMsg "_cat_file" path [])),
        ⟨fss, path, GenStatus.closed⟩) := by
  refine ⟨rfl, ?_⟩
  have h := do_action_no_owner "_cat_file" path [] fss hnoowner
  simp [genNext, cat_file, CompositeFilesystem.init, h]

/-- Witness for C10: with one backend that declines `weird://nowhere`,
calling `_cat_file` succeeds, returning a fresh not-started generator; the
generic `IOError` appears only at the first `next`. -/
theorem cat_file_dispatch_deferred_witness :
    cat_file (CompositeFilesystem.init [declineCatFS]) "weird://nowhere" =
      ⟨[declineCatFS], "weird://nowhere", GenStatus.notStarted⟩ ∧
    genNext (cat_file (CompositeFilesystem.init [declineCatFS])
        "weird://nowhere") =
      (NextResult.raised
          (Exc.ioError (genericMsg "_cat_file" "weird://nowhere" [])),
        ⟨[declineCatFS], "weird://nowhere", GenStatus.closed⟩) :=
  cat_file_dispatch_deferred [declineCatFS] "weird://nowhere"
    (by
      intro fs hfs
      rw [List.mem_singleton] at hfs
      subst hfs
      rfl)

end CompositeFS
